import Mathlib

/-!
Verification of the molecular scoring and stochastic refinement engine of the
Quantum-Neural-Network drug-discovery repository.

The embedding models `quantum_algorithms/quantum_molecular_sim.py`,
`quantum_drug_optimizer.py` and `analyze_medical_breakthroughs.py` over exact
reals.  The circuits built by the code use only the gates `X` and `ry(θ)`
(both real matrices) and never entangle qubits, so a state is a list of
per-qubit real amplitude pairs and the full state vector is their tensor
product.  The single measurement that `calculate_binding_energy` appends is
modelled by an explicit uniform sample `u ∈ [0,1)` (inverse-transform
sampling of the Born rule, exactly what `cirq.Simulator` does with its
pseudo-random stream), followed by the renormalizing collapse of the measured
qubit.  Every `np.random.normal(0, σ)` draw is modelled as `σ * z` for an
arbitrary real `z` supplied by an explicit stream, so all stochastic
behaviour of the Python code corresponds to some choice of the stream
arguments.
-/

noncomputable section

namespace QMolSim

abbrev Coord := ℝ × ℝ × ℝ

abbrev Coords := List Coord

/-- Single-qubit Pauli-X gate on real amplitudes: `cirq.X`. -/
def applyX (s : ℝ × ℝ) : ℝ × ℝ := (s.2, s.1)

/-- Single-qubit rotation `cirq.ry(θ)`, the real matrix
`[[cos(θ/2), -sin(θ/2)], [sin(θ/2), cos(θ/2)]]`. -/
def applyRy (θ : ℝ) (s : ℝ × ℝ) : ℝ × ℝ :=
  (Real.cos (θ / 2) * s.1 - Real.sin (θ / 2) * s.2,
   Real.sin (θ / 2) * s.1 + Real.cos (θ / 2) * s.2)

/-- Coordinate normalization inside `create_molecular_encoding_circuit`:
`norm = sqrt(x*x + y*y + z*z); if norm > 0: x, y, z = x/norm, y/norm, z/norm`. -/
def normalize3 (c : Coord) : Coord :=
  let n := Real.sqrt (c.1 * c.1 + c.2.1 * c.2.1 + c.2.2 * c.2.2)
  if n > 0 then (c.1 / n, c.2.1 / n, c.2.2 / n) else c

/-- The rotation angles of the encoding circuit, one per qubit
(`3` qubits per atom, angle `π/2 * coordinate` per axis). -/
def anglesOf (coords : Coords) : List ℝ :=
  coords.flatMap fun c =>
    let d := normalize3 c
    [Real.pi / 2 * d.1, Real.pi / 2 * d.2.1, Real.pi / 2 * d.2.2]

/-- Per-qubit state of the combined circuit of `calculate_binding_energy`:
qubit `i` receives `X` then `ry` from the protein encoding circuit when
`i < 3 * len(protein)`, then `X` then `ry` from the ligand encoding circuit
when `i < 3 * len(ligand)`.  The measurement gate forces at least the qubit
`GridQubit(0, 0)` into the circuit, hence the `max ... 1`. -/
def qubitState (ap al : List ℝ) (i : ℕ) : ℝ × ℝ :=
  let s0 : ℝ × ℝ := (1, 0)
  let s1 := match ap[i]? with
    | some θ => applyRy θ (applyX s0)
    | none => s0
  match al[i]? with
  | some θ => applyRy θ (applyX s1)
  | none => s1

/-- All per-qubit states of the combined circuit, in cirq's sorted qubit
order (`GridQubit(0,0)` first). -/
def qubitStates (protein ligand : Coords) : List (ℝ × ℝ) :=
  let ap := anglesOf protein
  let al := anglesOf ligand
  let n := max (max ap.length al.length) 1
  (List.range n).map (qubitState ap al)

/-- Born-rule measurement of one qubit with uniform sample `u`:
outcome `1` exactly when `u < |b|²`, followed by the renormalizing collapse
performed by `cirq.Simulator`. -/
def collapseQubit (s : ℝ × ℝ) (u : ℝ) : ℝ × ℝ :=
  if u < s.2 ^ 2 then (0, s.2 / |s.2|) else (s.1 / |s.1|, 0)

/-- The single measurement of `calculate_binding_energy` acts on
`GridQubit(0, 0)`, the first (most significant) qubit. -/
def collapseFirst (qs : List (ℝ × ℝ)) (u : ℝ) : List (ℝ × ℝ) :=
  match qs with
  | [] => []
  | q :: rest => collapseQubit q u :: rest

/-- Full state vector of a product state, big-endian as in cirq:
the first qubit selects the half of the index range. -/
def stateVector : List (ℝ × ℝ) → List ℝ
  | [] => [1]
  | q :: rest =>
      (stateVector rest).map (fun v => q.1 * v) ++
        (stateVector rest).map (fun v => q.2 * v)

mutual

/-- Sum of `|v|²` over the even indices of a list
(`np.sum([np.abs(v)**2 for v in final_state[::2]])`). -/
def sumsqEven : List ℝ → ℝ
  | [] => 0
  | x :: xs => x ^ 2 + sumsqOdd xs

/-- Sum of `|v|²` over the odd indices of a list
(`np.sum([np.abs(v)**2 for v in final_state[1::2]])`). -/
def sumsqOdd : List ℝ → ℝ
  | [] => 0
  | _ :: xs => sumsqEven xs

end

/-- Squared norm of a single-qubit real amplitude pair. -/
def nsq (s : ℝ × ℝ) : ℝ := s.1 ^ 2 + s.2 ^ 2

/-- Sum of squares of a list of amplitudes (`np.sum(np.abs(v)**2)`). -/
def sumsq (l : List ℝ) : ℝ := (l.map fun x => x ^ 2).sum

/-- Result dictionary of `calculate_binding_energy`. -/
structure EnergyResult where
  binding_energy : ℝ
  confidence_score : ℝ
  electrostatic_component : ℝ
  van_der_waals_component : ℝ

/-- `QuantumMolecularSimulator.calculate_binding_energy`.  The extra
argument `u` is the uniform sample consumed by the simulator when it
executes the measurement gate appended to the combined circuit. -/
def calculate_binding_energy (protein ligand : Coords) (u : ℝ) : EnergyResult :=
  let v := stateVector (collapseFirst (qubitStates protein ligand) u)
  let p0 := v.headI ^ 2
  let binding_energy := -Real.log (p0 + 1e-10)
  let electrostatic := sumsqEven v
  let van_der_waals := sumsqOdd v
  let total := electrostatic + van_der_waals
  if total > 0 then
    ⟨binding_energy, p0, electrostatic / total, van_der_waals / total⟩
  else
    ⟨binding_energy, p0, electrostatic, van_der_waals⟩

/-- One entry of the `optimization_path` of `optimize_drug_candidate`. -/
structure PathEntry where
  iteration : ℕ
  energy : ℝ
  improvement : ℝ
  electrostatic : ℝ
  van_der_waals : ℝ

/-- Loop state of `optimize_drug_candidate`:
`best_coords`, `best_energy` (initially `float('inf')`, modelled as `⊤`),
`optimization_path`, and `initial_energy` (initially `None`). -/
structure OptState where
  best_coords : Coords
  best_energy : WithTop ℝ
  path : List PathEntry
  initial_energy : Option ℝ

/-- Coordinate perturbation `(x + σ·z, y + σ·z, z + σ·z)` applied to a whole
coordinate list; `g` is the stream of standard-normal draws for atom `j`
(`np.random.normal(0, σ) = σ * z` for a standard draw `z`). -/
def perturbed (σ : ℝ) (g : ℕ → ℝ × ℝ × ℝ) : ℕ → Coords → Coords
  | _, [] => []
  | j, c :: rest =>
      (c.1 + σ * (g j).1, c.2.1 + σ * (g j).2.1, c.2.2 + σ * (g j).2.2) ::
        perturbed σ g (j + 1) rest

/-- One iteration of the loop of `optimize_drug_candidate`: perturb the
best-so-far coordinates with `σ = 0.05`, evaluate, record the initial energy
on the first pass, update the best-so-far on strict improvement, then append
the path entry (the `improvement` field uses the already-updated best, as in
the source). -/
def optStep (protein : Coords) (g : ℕ → ℕ → ℝ × ℝ × ℝ) (us : ℕ → ℝ) (i : ℕ)
    (st : OptState) : OptState :=
  let perturbed_coords := perturbed 0.05 (g i) 0 st.best_coords
  let result := calculate_binding_energy protein perturbed_coords (us i)
  let current_energy := result.binding_energy
  let initial' := match st.initial_energy with
    | none => some current_energy
    | some e => some e
  let best_energy' :=
    if (current_energy : WithTop ℝ) < st.best_energy then (current_energy : WithTop ℝ)
    else st.best_energy
  let best_coords' :=
    if (current_energy : WithTop ℝ) < st.best_energy then perturbed_coords
    else st.best_coords
  let entry : PathEntry :=
    ⟨i + 1, current_energy, best_energy'.untop' 0 - current_energy,
     result.electrostatic_component, result.van_der_waals_component⟩
  ⟨best_coords', best_energy', st.path ++ [entry], initial'⟩

/-- State of the loop of `optimize_drug_candidate` after `k` iterations. -/
def optIter (protein initial_ligand : Coords) (g : ℕ → ℕ → ℝ × ℝ × ℝ)
    (us : ℕ → ℝ) : ℕ → OptState
  | 0 => ⟨initial_ligand, ⊤, [], none⟩
  | k + 1 => optStep protein g us k (optIter protein initial_ligand g us k)

/-- Result dictionary of `optimize_drug_candidate`. -/
structure OptResult where
  optimized_coordinates : Coords
  final_binding_energy : WithTop ℝ
  optimization_path : List PathEntry
  convergence_score : ℝ
  final_temperature : ℝ
  stability_score : ℝ

/-- `QuantumMolecularSimulator.optimize_drug_candidate`.  `g i j` are the
standard-normal draws perturbing atom `j` at iteration `i`; `us i` is the
uniform measurement sample of the energy evaluation at iteration `i`.
`convergence_score = 1.0 - best/initial if initial_energy and initial_energy != 0
else 0.0`; the truthiness guard is `initial_energy ≠ None ∧ initial_energy ≠ 0`.
The `untop' 0` is justified: whenever `initial_energy` is `some`, at least one
iteration ran, hence `best_energy` is a real (never `⊤`). -/
def optimize_drug_candidate (protein initial_ligand : Coords) (iterations : ℕ)
    (g : ℕ → ℕ → ℝ × ℝ × ℝ) (us : ℕ → ℝ) : OptResult :=
  let st := optIter protein initial_ligand g us iterations
  let convergence_score : ℝ :=
    match st.initial_energy with
    | none => 0
    | some i => if i ≠ 0 then 1 - st.best_energy.untop' 0 / i else 0
  ⟨st.best_coords, st.best_energy, st.path, convergence_score, 0.1,
   convergence_score⟩

/-- Per-qubit states of a standalone molecular encoding circuit
(`X` then `ry` on every qubit), as simulated by `simulate_electron_density`. -/
def encodingStates (coords : Coords) : List (ℝ × ℝ) :=
  (anglesOf coords).map fun θ => applyRy θ (applyX (1, 0))

/-- `QuantumMolecularSimulator.simulate_electron_density`: squared amplitudes
of the encoding circuit truncated to the first `3 * num_atoms` entries, then
normalized when the truncated total is positive. -/
def simulate_electron_density (coords : Coords) : List ℝ :=
  let density := ((stateVector (encodingStates coords)).map fun v => v ^ 2).take
    (coords.length * 3)
  let total := density.sum
  if total > 0 then density.map (fun d => d / total) else density

/-- Result dictionary of `predict_binding_affinity`. -/
structure PredictResult where
  binding_affinity : ℝ
  confidence_score : ℝ
  electron_density_overlap : ℝ
  optimized_energy : WithTop ℝ
  stability_score : ℝ
  convergence_score : ℝ
  electrostatic_contribution : ℝ
  van_der_waals_contribution : ℝ

/-- Randomness consumed by one `predict_binding_affinity` call: the uniform
of its own `calculate_binding_energy` call and the streams of the nested
`optimize_drug_candidate` run (default budget of 5 iterations). -/
structure PredictRand where
  u0 : ℝ
  g : ℕ → ℕ → ℝ × ℝ × ℝ
  us : ℕ → ℝ

/-- `QuantumMolecularSimulator.predict_binding_affinity`: a full binding
evaluation, a nested 5-iteration optimizer run, and the dot product of the
two electron densities truncated to the shorter length. -/
def predict_binding_affinity (protein ligand : Coords) (r : PredictRand) :
    PredictResult :=
  let binding_result := calculate_binding_energy protein ligand r.u0
  let optimization_result := optimize_drug_candidate protein ligand 5 r.g r.us
  let protein_density := simulate_electron_density protein
  let ligand_density := simulate_electron_density ligand
  let min_length := min protein_density.length ligand_density.length
  let interaction_score :=
    (List.zipWith (fun a b => a * b) (protein_density.take min_length)
      (ligand_density.take min_length)).sum
  ⟨interaction_score, binding_result.confidence_score, interaction_score,
   optimization_result.final_binding_energy, optimization_result.stability_score,
   optimization_result.convergence_score, binding_result.electrostatic_component,
   binding_result.van_der_waals_component⟩

/-- One entry of the `optimization_history` recorded by
`optimize_cancer_drug` and `optimize_covid_inhibitor`. -/
structure HistEntry where
  iteration : ℕ
  binding_energy : ℝ
  stability : ℝ

/-- The `OptimizedDrugCandidate` dataclass of `quantum_drug_optimizer.py`. -/
structure OptimizedDrugCandidate where
  smiles : String
  target : String
  binding_score : ℝ
  stability_score : ℝ
  mutation_resistance : ℝ
  side_effect_profile : ℝ
  optimization_history : List HistEntry

/-- The `egfr_mutation_sites` dictionary of `QuantumDrugOptimizer.__init__`,
as the key-lookup map (a missing key raises `KeyError` in the source). -/
def egfr_mutation_sites : String → Option Coords := fun t =>
  if t = "T790M" then some [(0.2, 0.1, 0.1), (-0.1, 0.2, 0.1)]
  else if t = "L858R" then some [(0.1, -0.1, 0.2), (-0.2, 0.0, 0.1)]
  else if t = "C797S" then some [(0.0, 0.0, 0.0), (0.3, 0.2, 0.1)]
  else none

/-- `egfr_mutation_sites.values()` in dictionary insertion order
(`T790M`, `L858R`, `C797S`). -/
def egfr_site_values : List Coords :=
  [[(0.2, 0.1, 0.1), (-0.1, 0.2, 0.1)],
   [(0.1, -0.1, 0.2), (-0.2, 0.0, 0.1)],
   [(0.0, 0.0, 0.0), (0.3, 0.2, 0.1)]]

/-- The `spike_binding_sites` dictionary of `QuantumDrugOptimizer.__init__`. -/
def spike_binding_sites : String → Option Coords := fun t =>
  if t = "ACE2" then some [(0.0, 0.0, 0.0), (0.2, 0.1, 0.1)]
  else if t = "N501Y" then some [(-0.1, 0.2, 0.1), (0.1, -0.1, 0.2)]
  else if t = "E484K" then some [(-0.2, 0.0, 0.1), (0.3, 0.2, 0.1)]
  else none

/-- `QuantumDrugOptimizer._optimize_structure`: per-atom Gaussian nudges with
scale `delta = 0.1 * (1.0 - confidence_score)`. -/
def optimize_structure (coords : Coords) (confidence_score : ℝ)
    (g : ℕ → ℝ × ℝ × ℝ) : Coords :=
  perturbed (0.1 * (1.0 - confidence_score)) g 0 coords

/-- Randomness consumed by one `optimize_cancer_drug` /
`optimize_covid_inhibitor` call: per iteration a measurement uniform (`ub`),
the streams of the nested `predict_binding_affinity` call (`pred`) and the
draws of `_optimize_structure` (`g`); then the final evaluation pair
(`ubFinal`, `predFinal`), the three uniforms of
`_calculate_resistance_score` (`uRes`) and the one of
`_predict_side_effects` (`uSide`). -/
structure AggRand where
  ub : ℕ → ℝ
  pred : ℕ → PredictRand
  g : ℕ → ℕ → ℝ × ℝ × ℝ
  ubFinal : ℝ
  predFinal : PredictRand
  uRes : ℕ → ℝ
  uSide : ℝ

/-- Loop state of `optimize_cancer_drug` / `optimize_covid_inhibitor`:
`best_coords`, `best_score` (initially `float('inf')`), `optimization_history`. -/
structure AggState where
  best_coords : Coords
  best_score : WithTop ℝ
  history : List HistEntry

/-- One iteration of the (identical) loops of `optimize_cancer_drug` and
`optimize_covid_inhibitor`: evaluate binding and stability at the current
best coordinates, append a history entry, and on strict improvement replace
the best score and move the coordinates with `_optimize_structure`. -/
def targetStep (site : Coords) (r : AggRand) (i : ℕ) (st : AggState) : AggState :=
  let binding_result := calculate_binding_energy site st.best_coords (r.ub i)
  let stability_result := predict_binding_affinity site st.best_coords (r.pred i)
  let current_score := binding_result.binding_energy
  let history' := st.history ++ [⟨i, current_score, stability_result.stability_score⟩]
  if (current_score : WithTop ℝ) < st.best_score then
    ⟨optimize_structure st.best_coords binding_result.confidence_score (r.g i),
     current_score, history'⟩
  else ⟨st.best_coords, st.best_score, history'⟩

/-- State of the target-optimization loop after `k` iterations. -/
def targetLoop (site initial_coords : Coords) (r : AggRand) : ℕ → AggState
  | 0 => ⟨initial_coords, ⊤, []⟩
  | k + 1 => targetStep site r k (targetLoop site initial_coords r k)

/-- The binding energies accumulated by `_calculate_resistance_score`, one
per configured EGFR mutation site, each consuming one measurement uniform. -/
def resistance_scores (coords : Coords) (uRes : ℕ → ℝ) :
    List Coords → ℕ → List ℝ
  | [], _ => []
  | site :: rest, j =>
      (calculate_binding_energy site coords (uRes j)).binding_energy ::
        resistance_scores coords uRes rest (j + 1)

/-- `QuantumDrugOptimizer._calculate_resistance_score`: mean binding energy
of `coords` against the values of `egfr_mutation_sites` (used by the cancer
AND the covid path alike). -/
def calculate_resistance_score (coords : Coords) (uRes : ℕ → ℝ) : ℝ :=
  let scores := resistance_scores coords uRes egfr_site_values 0
  scores.sum / scores.length

/-- `QuantumDrugOptimizer._predict_side_effects`: `1 - exp(-binding_energy)`
against two fixed off-target points. -/
def predict_side_effects (coords : Coords) (u : ℝ) : ℝ :=
  let off_target_coords : Coords := [(0.1, 0.1, 0.1), (-0.1, -0.1, -0.1)]
  1.0 - Real.exp (-(calculate_binding_energy off_target_coords coords u).binding_energy)

/-- `QuantumDrugOptimizer.optimize_cancer_drug`.  The dictionary lookup
`self.egfr_mutation_sites[target_mutation]` happens before the loop, so an
unknown key raises `KeyError` (modelled as `.error`) before any iteration. -/
def optimize_cancer_drug (initial_coords : Coords) (target_mutation : String)
    (iterations : ℕ) (r : AggRand) : Except String OptimizedDrugCandidate :=
  match egfr_mutation_sites target_mutation with
  | none => .error ("KeyError: " ++ target_mutation)
  | some mutation_site =>
    let st := targetLoop mutation_site initial_coords r iterations
    let final_binding := calculate_binding_energy mutation_site st.best_coords r.ubFinal
    let final_affinity := predict_binding_affinity mutation_site st.best_coords r.predFinal
    .ok ⟨"OPTIMIZED_" ++ target_mutation, target_mutation,
         final_binding.binding_energy, final_affinity.stability_score,
         calculate_resistance_score st.best_coords r.uRes,
         predict_side_effects st.best_coords r.uSide, st.history⟩

/-- `QuantumDrugOptimizer.optimize_covid_inhibitor`: identical to
`optimize_cancer_drug` except for the site dictionary consulted; note that
`_calculate_resistance_score` still evaluates against the EGFR sites. -/
def optimize_covid_inhibitor (initial_coords : Coords) (target_site : String)
    (iterations : ℕ) (r : AggRand) : Except String OptimizedDrugCandidate :=
  match spike_binding_sites target_site with
  | none => .error ("KeyError: " ++ target_site)
  | some binding_site =>
    let st := targetLoop binding_site initial_coords r iterations
    let final_binding := calculate_binding_energy binding_site st.best_coords r.ubFinal
    let final_affinity := predict_binding_affinity binding_site st.best_coords r.predFinal
    .ok ⟨"OPTIMIZED_" ++ target_site, target_site,
         final_binding.binding_energy, final_affinity.stability_score,
         calculate_resistance_score st.best_coords r.uRes,
         predict_side_effects st.best_coords r.uSide, st.history⟩

/-- The `reference_scores["cancer"]` table of `MedicalBreakthroughAnalyzer`. -/
def reference_scores_cancer : List (String × ℝ) :=
  [("osimertinib", 8.2), ("rociletinib", 7.9), ("olmutinib", 7.5)]

/-- The `reference_scores["covid"]` table of `MedicalBreakthroughAnalyzer`. -/
def reference_scores_covid : List (String × ℝ) :=
  [("paxlovid", 7.8), ("remdesivir", 6.9), ("molnupiravir", 6.5)]

/-- Python `max(scores.values())`; `max()` of an empty sequence raises in
Python, which is unreachable for the two fixed, non-empty tables, so the
empty case is given the junk value 0. -/
def best_known (scores : List (String × ℝ)) : ℝ :=
  match scores.map Prod.snd with
  | [] => 0
  | x :: xs => xs.foldl max x

/-- The improvement formula of `analyze_cancer_breakthrough` /
`analyze_covid_breakthrough`:
`((candidate_score - best_known) / best_known) * 100`. -/
def improvement_percentage (candidate_score bk : ℝ) : ℝ :=
  (candidate_score - bk) / bk * 100

/-- `improvement_percentage` as instantiated on the cancer path, where
`best_known = max(self.reference_scores["cancer"].values())`. -/
def cancer_breakthrough_improvement (binding_score : ℝ) : ℝ :=
  improvement_percentage binding_score (best_known reference_scores_cancer)

/-- `improvement_percentage` as instantiated on the covid path. -/
def covid_breakthrough_improvement (binding_score : ℝ) : ℝ :=
  improvement_percentage binding_score (best_known reference_scores_covid)

/-- Fixed coordinate sets used as concrete evaluation points. -/
def siteA : Coords := [(1, 0, 0)]

/-- Fixed candidate coordinate set used as a concrete evaluation point. -/
def candB : Coords := [(0, 1, 0)]

/-- A fixed all-zero coordinate set used as a concrete evaluation point. -/
def zeroCoords : Coords := [(0, 0, 0)]

/-- Zero perturbation stream (all Gaussian draws equal to 0). -/
def cexPert : ℕ → ℕ → ℝ × ℝ × ℝ := fun _ _ => (0, 0, 0)

/-- Measurement samples forcing outcome `1` at iteration 0 and outcome `0`
afterwards for the `siteA`/`candB` evaluation point. -/
def cexUs : ℕ → ℝ := fun i => if i = 0 then 1 / 4 else 3 / 4

/-- A fixed choice of aggregator randomness used by concrete witnesses. -/
def aggRand0 : AggRand :=
  ⟨fun _ => 1 / 2, fun _ => ⟨1 / 2, fun _ _ => (0, 0, 0), fun _ => 1 / 2⟩,
   fun _ _ => (0, 0, 0), 1 / 2, ⟨1 / 2, fun _ _ => (0, 0, 0), fun _ => 1 / 2⟩,
   fun _ => 1 / 2, 1 / 2⟩

/-! ### Basic facts about gates, states and sums of squares -/

theorem nsq_applyX (s : ℝ × ℝ) : nsq (applyX s) = nsq s := by
  simp [nsq, applyX, add_comm]

theorem nsq_applyRy (θ : ℝ) (s : ℝ × ℝ) : nsq (applyRy θ s) = nsq s := by
  have h := Real.sin_sq_add_cos_sq (θ / 2)
  simp only [nsq, applyRy]
  linear_combination (s.1 ^ 2 + s.2 ^ 2) * h

theorem nsq_qubitState (ap al : List ℝ) (i : ℕ) : nsq (qubitState ap al i) = 1 := by
  unfold qubitState
  rcases h1 : ap[i]? with _ | θ₁ <;> rcases h2 : al[i]? with _ | θ₂ <;>
    simp only [h1, h2] <;>
    (try simp only [nsq_applyRy, nsq_applyX]) <;>
    norm_num [nsq]

theorem nsq_collapseQubit (s : ℝ × ℝ) (u : ℝ) (hs : nsq s = 1) (h0 : 0 ≤ u)
    (h1 : u < 1) : nsq (collapseQubit s u) = 1 := by
  rw [nsq] at hs
  unfold collapseQubit
  by_cases h : u < s.2 ^ 2
  · have hb : s.2 ≠ 0 := by
      intro hz
      rw [hz] at h
      simp at h
      linarith
    rw [if_pos h]
    have : (s.2 / |s.2|) ^ 2 = 1 := by
      rw [div_pow, sq_abs, div_self (pow_ne_zero 2 hb)]
    simp [nsq, this]
  · have hb2 : s.2 ^ 2 ≤ u := not_lt.mp h
    have ha : s.1 ≠ 0 := by
      intro hz
      rw [hz] at hs
      have h22 : s.2 ^ 2 = 1 := by nlinarith [hs]
      rw [h22] at hb2
      linarith
    rw [if_neg h]
    have : (s.1 / |s.1|) ^ 2 = 1 := by
      rw [div_pow, sq_abs, div_self (pow_ne_zero 2 ha)]
    simp [nsq, this]

theorem stateVector_ne_nil (qs : List (ℝ × ℝ)) : stateVector qs ≠ [] := by
  induction qs with
  | nil => simp [stateVector]
  | cons q rest ih => simp [stateVector, ih]

theorem sumsq_nil : sumsq [] = 0 := by simp [sumsq]

theorem sumsq_cons (x : ℝ) (xs : List ℝ) : sumsq (x :: xs) = x ^ 2 + sumsq xs := by
  simp [sumsq]

theorem sumsq_append (a b : List ℝ) : sumsq (a ++ b) = sumsq a + sumsq b := by
  simp [sumsq]

theorem sumsq_map_mul (c : ℝ) (l : List ℝ) :
    sumsq (l.map fun v => c * v) = c ^ 2 * sumsq l := by
  induction l with
  | nil => simp [sumsq]
  | cons x xs ih => simp [sumsq_cons, ih, mul_pow]; ring

theorem sumsq_nonneg (l : List ℝ) : 0 ≤ sumsq l := by
  induction l with
  | nil => simp [sumsq]
  | cons x xs ih => rw [sumsq_cons]; have := sq_nonneg x; linarith

theorem sumsqEven_add_sumsqOdd (l : List ℝ) :
    sumsqEven l + sumsqOdd l = sumsq l := by
  induction l with
  | nil => simp [sumsqEven, sumsqOdd, sumsq]
  | cons x xs ih => rw [sumsqEven, sumsqOdd, sumsq_cons]; linarith

theorem sumsq_stateVector (qs : List (ℝ × ℝ)) :
    sumsq (stateVector qs) = (qs.map nsq).prod := by
  induction qs with
  | nil => simp [stateVector, sumsq]
  | cons q rest ih =>
    rw [stateVector, sumsq_append, sumsq_map_mul, sumsq_map_mul, ih]
    simp [nsq]
    ring

theorem headI_append_of_ne_nil (l l' : List ℝ) (h : l ≠ []) :
    (l ++ l').headI = l.headI := by
  cases l with
  | nil => exact absurd rfl h
  | cons x xs => simp

theorem headI_stateVector (qs : List (ℝ × ℝ)) :
    (stateVector qs).headI = (qs.map Prod.fst).prod := by
  induction qs with
  | nil => simp [stateVector]
  | cons q rest ih =>
    rw [stateVector,
      headI_append_of_ne_nil _ _ (by simp [stateVector_ne_nil])]
    cases h : stateVector rest with
    | nil => exact absurd h (stateVector_ne_nil rest)
    | cons x xs =>
      rw [h] at ih
      simp at ih
      simp [h, ih]

theorem mem_sq_le_sumsq (l : List ℝ) (x : ℝ) (hx : x ∈ l) : x ^ 2 ≤ sumsq l := by
  induction l with
  | nil => simp at hx
  | cons y ys ih =>
    rw [sumsq_cons]
    rcases List.mem_cons.mp hx with rfl | hm
    · linarith [sumsq_nonneg ys]
    · linarith [ih hm, sq_nonneg y]

theorem headI_mem_of_ne_nil (l : List ℝ) (h : l ≠ []) : l.headI ∈ l := by
  cases l with
  | nil => exact absurd rfl h
  | cons x xs => simp

/-! ### Facts about the measured, collapsed state of the evaluator -/

theorem nsq_mem_qubitStates (protein ligand : Coords) (q : ℝ × ℝ)
    (hq : q ∈ qubitStates protein ligand) : nsq q = 1 := by
  simp only [qubitStates, List.mem_map] at hq
  obtain ⟨i, -, rfl⟩ := hq
  exact nsq_qubitState _ _ i

theorem nsq_mem_collapseFirst (qs : List (ℝ × ℝ)) (u : ℝ)
    (hqs : ∀ q ∈ qs, nsq q = 1) (h0 : 0 ≤ u) (h1 : u < 1) :
    ∀ q ∈ collapseFirst qs u, nsq q = 1 := by
  cases qs with
  | nil => simp [collapseFirst]
  | cons q rest =>
    intro x hx
    rw [collapseFirst] at hx
    rcases List.mem_cons.mp hx with rfl | hm
    · exact nsq_collapseQubit _ _ (hqs q (by simp)) h0 h1
    · exact hqs x (by simp [hm])

theorem sumsq_collapsed (protein ligand : Coords) (u : ℝ) (h0 : 0 ≤ u)
    (h1 : u < 1) :
    sumsq (stateVector (collapseFirst (qubitStates protein ligand) u)) = 1 := by
  rw [sumsq_stateVector]
  apply List.prod_eq_one
  intro x hx
  simp only [List.mem_map] at hx
  obtain ⟨q, hq, rfl⟩ := hx
  exact nsq_mem_collapseFirst _ u (nsq_mem_qubitStates protein ligand) h0 h1 q hq

theorem collapseFirst_ne_nil_iff (qs : List (ℝ × ℝ)) (u : ℝ) :
    collapseFirst qs u = [] ↔ qs = [] := by
  cases qs <;> simp [collapseFirst]

theorem p0_nonneg (protein ligand : Coords) (u : ℝ) :
    0 ≤ (stateVector (collapseFirst (qubitStates protein ligand) u)).headI ^ 2 :=
  sq_nonneg _

theorem p0_le_one (protein ligand : Coords) (u : ℝ) (h0 : 0 ≤ u) (h1 : u < 1) :
    (stateVector (collapseFirst (qubitStates protein ligand) u)).headI ^ 2 ≤ 1 := by
  rw [← sumsq_collapsed protein ligand u h0 h1]
  exact mem_sq_le_sumsq _ _
    (headI_mem_of_ne_nil _ (stateVector_ne_nil _))

theorem cbe_binding_energy (protein ligand : Coords) (u : ℝ) :
    (calculate_binding_energy protein ligand u).binding_energy =
      -Real.log
        ((stateVector (collapseFirst (qubitStates protein ligand) u)).headI ^ 2 +
          1e-10) := by
  simp only [calculate_binding_energy, apply_ite EnergyResult.binding_energy,
    ite_self]

theorem cbe_confidence (protein ligand : Coords) (u : ℝ) :
    (calculate_binding_energy protein ligand u).confidence_score =
      (stateVector (collapseFirst (qubitStates protein ligand) u)).headI ^ 2 := by
  simp only [calculate_binding_energy, apply_ite EnergyResult.confidence_score,
    ite_self]

theorem cbe_components_sum (protein ligand : Coords) (u : ℝ) (h0 : 0 ≤ u)
    (h1 : u < 1) :
    (calculate_binding_energy protein ligand u).electrostatic_component +
      (calculate_binding_energy protein ligand u).van_der_waals_component = 1 := by
  have htot :
      sumsqEven (stateVector (collapseFirst (qubitStates protein ligand) u)) +
        sumsqOdd (stateVector (collapseFirst (qubitStates protein ligand) u)) = 1 := by
    rw [sumsqEven_add_sumsqOdd]
    exact sumsq_collapsed protein ligand u h0 h1
  simp only [calculate_binding_energy]
  rw [if_pos (by rw [htot]; norm_num)]
  rw [div_add_div_same, htot]
  norm_num

theorem cbe_confidence_bounds (protein ligand : Coords) (u : ℝ) (h0 : 0 ≤ u)
    (h1 : u < 1) :
    0 ≤ (calculate_binding_energy protein ligand u).confidence_score ∧
      (calculate_binding_energy protein ligand u).confidence_score ≤ 1 := by
  rw [cbe_confidence]
  exact ⟨p0_nonneg protein ligand u, p0_le_one protein ligand u h0 h1⟩

/-! ### Invariants of the local search loop -/

theorem ite_lt_eq_min (e : ℝ) (M : WithTop ℝ) :
    (if (e : WithTop ℝ) < M then (e : WithTop ℝ) else M) = min M (e : WithTop ℝ) := by
  rcases lt_or_ge (e : WithTop ℝ) M with h | h
  · rw [if_pos h, min_eq_right h.le]
  · rw [if_neg (not_lt.mpr h), min_eq_left h]

theorem optIter_path_length (protein l₀ : Coords) (g : ℕ → ℕ → ℝ × ℝ × ℝ)
    (us : ℕ → ℝ) (n : ℕ) : ((optIter protein l₀ g us n).path).length = n := by
  induction n with
  | zero => simp [optIter]
  | succ k ih => simp [optIter, optStep, ih]

theorem optIter_best_eq_minimum (protein l₀ : Coords) (g : ℕ → ℕ → ℝ × ℝ × ℝ)
    (us : ℕ → ℝ) (n : ℕ) :
    (optIter protein l₀ g us n).best_energy =
      (((optIter protein l₀ g us n).path).map PathEntry.energy).minimum := by
  induction n with
  | zero => simp [optIter]
  | succ k ih =>
    rw [optIter]
    simp only [optStep, List.map_append, List.map_cons, List.map_nil]
    rw [List.minimum_concat, ← ih, ite_lt_eq_min]

theorem optIter_path_take (protein l₀ : Coords) (g : ℕ → ℕ → ℝ × ℝ × ℝ)
    (us : ℕ → ℝ) (k n : ℕ) (h : k ≤ n) :
    ((optIter protein l₀ g us n).path).take k = (optIter protein l₀ g us k).path := by
  induction n with
  | zero =>
    rw [Nat.le_zero.mp h]
    simp [optIter]
  | succ m ih =>
    by_cases hk : k ≤ m
    · rw [optIter]
      simp only [optStep]
      rw [List.take_append_of_le_length
        (by rw [optIter_path_length]; exact hk)]
      exact ih hk
    · have hk' : k = m + 1 :=
        le_antisymm h (Nat.succ_le_of_lt (Nat.lt_of_not_le hk))
      subst hk'
      rw [List.take_of_length_le
        (le_of_eq (optIter_path_length protein l₀ g us (m + 1)))]

theorem optIter_initial_eq_head (protein l₀ : Coords) (g : ℕ → ℕ → ℝ × ℝ × ℝ)
    (us : ℕ → ℝ) (n : ℕ) :
    (optIter protein l₀ g us n).initial_energy =
      (((optIter protein l₀ g us n).path).map PathEntry.energy).head? := by
  induction n with
  | zero => simp [optIter]
  | succ k ih =>
    rw [optIter]
    simp only [optStep]
    cases hp : (optIter protein l₀ g us k).path with
    | nil =>
      rw [hp] at ih
      simp only [List.map_nil, List.head?_nil] at ih
      rw [ih]
      simp
    | cons a rest =>
      rw [hp] at ih
      simp only [List.map_cons, List.head?_cons] at ih
      rw [ih]
      simp

theorem minimum_coe_of_ne_nil (l : List ℝ) (h : l ≠ []) :
    ∃ m : ℝ, l.minimum = (m : WithTop ℝ) := by
  cases hm : l.minimum with
  | top => exact absurd (List.minimum_eq_top.mp hm) h
  | coe m => exact ⟨m, rfl⟩

theorem getElem?_concat_of_length {α : Type} (l : List α) (a : α) (k : ℕ)
    (h : l.length = k) : (l ++ [a])[k]? = some a := by
  subst h
  exact List.getElem?_concat_length l a

theorem optIter_last_entry (protein l₀ : Coords) (g : ℕ → ℕ → ℝ × ℝ × ℝ)
    (us : ℕ → ℝ) (k : ℕ) :
    ∃ en : PathEntry,
      (optIter protein l₀ g us (k + 1)).path = (optIter protein l₀ g us k).path ++ [en] ∧
      en.improvement =
        ((optIter protein l₀ g us (k + 1)).best_energy).untop' 0 - en.energy := by
  rw [optIter]
  simp only [optStep]
  exact ⟨_, rfl, rfl⟩

/-- C2: for every iteration count, `optimize_drug_candidate` returns an
`optimization_path` with exactly that many entries, and its
`final_binding_energy` is exactly the minimum of the `energy` values over
all path entries (the loop starts the best at `+∞` and replaces it on
strict improvement, which computes the running minimum). -/
theorem optimize_path_length_and_final_min (protein l₀ : Coords)
    (g : ℕ → ℕ → ℝ × ℝ × ℝ) (us : ℕ → ℝ) (n : ℕ) :
    ((optimize_drug_candidate protein l₀ n g us).optimization_path).length = n ∧
    (optimize_drug_candidate protein l₀ n g us).final_binding_energy =
      (((optimize_drug_candidate protein l₀ n g us).optimization_path).map
        PathEntry.energy).minimum := by
  constructor
  · simpa only [optimize_drug_candidate] using optIter_path_length protein l₀ g us n
  · simpa only [optimize_drug_candidate] using
      optIter_best_eq_minimum protein l₀ g us n

/-- C4: the `convergence_score` of an optimization run is total (the guard
`if initial_energy and initial_energy != 0` makes the division unreachable
otherwise) and equals `1 - final/initial` exactly when the initial energy
(first path entry, always a finite real in this evaluator) is non-zero, and
`0` otherwise (no iterations, or initial energy `0`). -/
theorem optimize_convergence_formula (protein l₀ : Coords)
    (g : ℕ → ℕ → ℝ × ℝ × ℝ) (us : ℕ → ℝ) (n : ℕ) :
    (optimize_drug_candidate protein l₀ n g us).convergence_score =
      match (((optimize_drug_candidate protein l₀ n g us).optimization_path).map
        PathEntry.energy).head? with
      | none => 0
      | some i =>
          if i ≠ 0 then
            1 - ((optimize_drug_candidate protein l₀ n g us).final_binding_energy).untop' 0 / i
          else 0 := by
  simp only [optimize_drug_candidate]
  rw [optIter_initial_eq_head]

/-- C5 (amended): every path entry's `improvement` equals the best-so-far
energy AFTER this step's update minus this step's energy — the source
updates `best_energy` before recording the entry, so improving steps record
`0` and non-improving steps record a non-positive value. -/
theorem optimize_improvement_after_update (protein l₀ : Coords)
    (g : ℕ → ℕ → ℝ × ℝ × ℝ) (us : ℕ → ℝ) (n k : ℕ) (hk : k < n) :
    ∃ en : PathEntry, ∃ m : ℝ,
      ((optimize_drug_candidate protein l₀ n g us).optimization_path)[k]? = some en ∧
      ((((optimize_drug_candidate protein l₀ n g us).optimization_path).take (k + 1)).map
        PathEntry.energy).minimum = (m : WithTop ℝ) ∧
      en.improvement = m - en.energy := by
  simp only [optimize_drug_candidate]
  have htake := optIter_path_take protein l₀ g us (k + 1) n hk
  have hmin := optIter_best_eq_minimum protein l₀ g us (k + 1)
  have hne : (((optIter protein l₀ g us (k + 1)).path).map PathEntry.energy) ≠ [] := by
    intro hnil
    have := congrArg List.length hnil
    rw [List.length_map, optIter_path_length] at this
    simp at this
  obtain ⟨m, hm⟩ := minimum_coe_of_ne_nil _ hne
  obtain ⟨en, hsplit, himp⟩ := optIter_last_entry protein l₀ g us k
  refine ⟨en, m, ?_, ?_, ?_⟩
  · rw [← List.getElem?_take_of_lt (Nat.lt_succ_self k), htake, hsplit]
    exact getElem?_concat_of_length _ _ _ (optIter_path_length protein l₀ g us k)
  · rw [htake]
    exact hm
  · rw [himp, hmin, hm, WithTop.untop'_coe]

/-! ### Claim theorems about the energy evaluator -/

/-- C3: for all non-empty coordinate sets (and any valid measurement
sample), the two components returned by `calculate_binding_energy` sum to
exactly 1: the raw contributions are the even- and odd-index probability
masses of a unit-norm state, so their total is 1, the renormalization guard
`total > 0` always passes, and after division the components sum to 1 (the
both-raw-contributions-zero fallback is unreachable). -/
theorem evaluator_components_sum_to_one (protein ligand : Coords) (u : ℝ)
    (hp : protein ≠ []) (hl : ligand ≠ []) (h0 : 0 ≤ u) (h1 : u < 1) :
    (calculate_binding_energy protein ligand u).electrostatic_component +
      (calculate_binding_energy protein ligand u).van_der_waals_component = 1 := by
  clear hp hl
  exact cbe_components_sum protein ligand u h0 h1

/-- C8: the binding energy produced by `calculate_binding_energy` is always
a finite real, bounded above by `-log(1e-10)` and below by
`-log(1 + 1e-10)`: the survival probability `p0` lies in `[0, 1]`, so the
argument of the negated logarithm lies in `[1e-10, 1 + 1e-10]`. -/
theorem evaluator_energy_bounds (protein ligand : Coords) (u : ℝ)
    (h0 : 0 ≤ u) (h1 : u < 1) :
    -Real.log (1 + 1e-10) ≤ (calculate_binding_energy protein ligand u).binding_energy ∧
    (calculate_binding_energy protein ligand u).binding_energy ≤ -Real.log 1e-10 := by
  rw [cbe_binding_energy]
  have hp0 := p0_nonneg protein ligand u
  have hp1 := p0_le_one protein ligand u h0 h1
  constructor
  · apply neg_le_neg
    apply Real.log_le_log (by positivity)
    linarith
  · apply neg_le_neg
    apply Real.log_le_log (by norm_num)
    linarith

/-- C1 (amended): `calculate_binding_energy` is deterministic in its inputs
together with the simulator's measurement sample; two calls on identical
inputs are guaranteed identical whenever the measured qubit has a definite
outcome (excited-state probability 0 or 1).  Otherwise the output depends on
the random sample drawn for the appended measurement gate. -/
theorem evaluator_deterministic_given_outcome (protein ligand : Coords)
    (u u' : ℝ) (h0 : 0 ≤ u) (h1 : u < 1) (h0' : 0 ≤ u') (h1' : u' < 1)
    (hb : ((qubitStates protein ligand).headI.2) ^ 2 = 0 ∨
      ((qubitStates protein ligand).headI.2) ^ 2 = 1) :
    calculate_binding_energy protein ligand u =
      calculate_binding_energy protein ligand u' := by
  have hcol : collapseFirst (qubitStates protein ligand) u =
      collapseFirst (qubitStates protein ligand) u' := by
    cases hq : qubitStates protein ligand with
    | nil => simp [collapseFirst]
    | cons q rest =>
      rw [hq] at hb
      simp only [List.headI_cons] at hb
      simp only [collapseFirst]
      unfold collapseQubit
      rcases hb with hb | hb
      · rw [hb, if_neg (not_lt.mpr h0), if_neg (not_lt.mpr h0')]
      · rw [hb, if_pos h1, if_pos h1']
  unfold calculate_binding_energy
  rw [hcol]

/-! ### Concrete evaluations at the empty input -/

theorem qubitStates_empty : qubitStates [] [] = [((1 : ℝ), (0 : ℝ))] := by
  have hr : List.range 1 = [0] := by decide
  simp [qubitStates, anglesOf, hr, qubitState]

theorem cbe_empty_empty (u : ℝ) (h0 : 0 ≤ u) :
    (calculate_binding_energy [] [] u).confidence_score = 1 ∧
    (calculate_binding_energy [] [] u).binding_energy = -Real.log (1 + 1e-10) := by
  have hcol : collapseFirst (qubitStates [] []) u = [((1 : ℝ), (0 : ℝ))] := by
    rw [qubitStates_empty, collapseFirst]
    unfold collapseQubit
    rw [if_neg (by simpa using not_lt.mpr h0)]
    norm_num
  rw [cbe_confidence, cbe_binding_energy, hcol]
  simp [stateVector]

/-- C6 (counterexample): with BOTH inputs empty, the circuit consists of the
measurement gate alone acting on a fresh qubit in `|0⟩`, so the evaluator
returns `confidence_score = 1` (not 0) and
`binding_energy = -log(1 + 1e-10)` (not the floor-only value `-log(1e-10)`). -/
theorem evaluator_empty_input_cex :
    (calculate_binding_energy [] [] (1 / 2)).confidence_score ≠ 0 ∧
    (calculate_binding_energy [] [] (1 / 2)).binding_energy ≠ -Real.log 1e-10 := by
  obtain ⟨hc, hb⟩ := cbe_empty_empty (1 / 2) (by norm_num)
  refine ⟨by rw [hc]; norm_num, ?_⟩
  rw [hb]
  intro h
  have h' : Real.log (1 + 1e-10) = Real.log 1e-10 := neg_injective h
  have hlt : Real.log 1e-10 < Real.log (1 + 1e-10) :=
    Real.log_lt_log (by norm_num) (by norm_num)
  linarith

/-- C6 (amended): with an empty input the evaluator still never fails and
returns a well-formed result (confidence in `[0,1]`, components summing
to 1), but the empty-input outputs are NOT the floor-only values the spec
describes: with both inputs empty the confidence is 1 and the binding
energy is `-log(1 + 1e-10)`. -/
theorem evaluator_empty_input_behaviour (protein ligand : Coords) (u : ℝ)
    (h0 : 0 ≤ u) (h1 : u < 1) (he : protein = [] ∨ ligand = []) :
    (0 ≤ (calculate_binding_energy protein ligand u).confidence_score ∧
      (calculate_binding_energy protein ligand u).confidence_score ≤ 1 ∧
      (calculate_binding_energy protein ligand u).electrostatic_component +
        (calculate_binding_energy protein ligand u).van_der_waals_component = 1) ∧
    (protein = [] → ligand = [] →
      (calculate_binding_energy protein ligand u).confidence_score = 1 ∧
      (calculate_binding_energy protein ligand u).binding_energy =
        -Real.log (1 + 1e-10)) := by
  clear he
  obtain ⟨hc0, hc1⟩ := cbe_confidence_bounds protein ligand u h0 h1
  refine ⟨⟨hc0, hc1, cbe_components_sum protein ligand u h0 h1⟩, ?_⟩
  rintro rfl rfl
  exact cbe_empty_empty u h0

/-! ### Concrete evaluations at `siteA = [(1,0,0)]`, `candB = [(0,1,0)]` -/

theorem applyRy_zero (s : ℝ × ℝ) : applyRy 0 s = s := by
  unfold applyRy
  simp

theorem applyRy_pi_div_two_ket1 :
    applyRy (Real.pi / 2) ((0 : ℝ), (1 : ℝ)) =
      (-(Real.sqrt 2 / 2), Real.sqrt 2 / 2) := by
  unfold applyRy
  have h : Real.pi / 2 / 2 = Real.pi / 4 := by ring
  rw [h, Real.cos_pi_div_four, Real.sin_pi_div_four]
  norm_num

theorem applyRy_pi_div_two_ket0 :
    applyRy (Real.pi / 2) ((1 : ℝ), (0 : ℝ)) =
      (Real.sqrt 2 / 2, Real.sqrt 2 / 2) := by
  unfold applyRy
  have h : Real.pi / 2 / 2 = Real.pi / 4 := by ring
  rw [h, Real.cos_pi_div_four, Real.sin_pi_div_four]
  norm_num

theorem anglesOf_siteA : anglesOf siteA = [Real.pi / 2, 0, 0] := by
  have hn : normalize3 ((1 : ℝ), 0, 0) = ((1 : ℝ), 0, 0) := by
    unfold normalize3
    norm_num [Real.sqrt_one]
  simp only [anglesOf, siteA, List.flatMap_cons, List.flatMap_nil, hn]
  norm_num

theorem anglesOf_candB : anglesOf candB = [0, Real.pi / 2, 0] := by
  have hn : normalize3 ((0 : ℝ), 1, 0) = ((0 : ℝ), 1, 0) := by
    unfold normalize3
    norm_num [Real.sqrt_one]
  simp only [anglesOf, candB, List.flatMap_cons, List.flatMap_nil, hn]
  norm_num

theorem qubitStates_AB :
    qubitStates siteA candB =
      [(Real.sqrt 2 / 2, -(Real.sqrt 2 / 2)),
       (Real.sqrt 2 / 2, Real.sqrt 2 / 2), ((1 : ℝ), (0 : ℝ))] := by
  have hr : List.range 3 = [0, 1, 2] := by decide
  rw [qubitStates]
  simp only [anglesOf_siteA, anglesOf_candB, List.length_cons, List.length_nil]
  norm_num
  rw [hr, List.map_cons, List.map_cons, List.map_cons, List.map_nil]
  have h0 : qubitState [Real.pi / 2, 0, 0] [0, Real.pi / 2, 0] 0 =
      (Real.sqrt 2 / 2, -(Real.sqrt 2 / 2)) := by
    simp only [qubitState]
    norm_num [applyX, applyRy_pi_div_two_ket1, applyRy_zero]
  have h1 : qubitState [Real.pi / 2, 0, 0] [0, Real.pi / 2, 0] 1 =
      (Real.sqrt 2 / 2, Real.sqrt 2 / 2) := by
    simp only [qubitState]
    norm_num [applyX, applyRy_pi_div_two_ket0, applyRy_zero]
  have h2 : qubitState [Real.pi / 2, 0, 0] [0, Real.pi / 2, 0] 2 =
      ((1 : ℝ), (0 : ℝ)) := by
    simp only [qubitState]
    norm_num [applyX, applyRy_zero]
  rw [h0, h1, h2]

theorem sqrttwo_div_two_pos : 0 < Real.sqrt 2 / 2 := by
  have := Real.sqrt_pos.mpr (by norm_num : (0 : ℝ) < 2)
  linarith

theorem sqrttwo_div_two_sq : (Real.sqrt 2 / 2) ^ 2 = 1 / 2 := by
  rw [div_pow, Real.sq_sqrt (by norm_num : (0 : ℝ) ≤ 2)]
  norm_num

theorem collapse_AB_low :
    collapseFirst (qubitStates siteA candB) (1 / 4) =
      [((0 : ℝ), (-1 : ℝ)), (Real.sqrt 2 / 2, Real.sqrt 2 / 2),
       ((1 : ℝ), (0 : ℝ))] := by
  rw [qubitStates_AB]
  simp only [collapseFirst]
  unfold collapseQubit
  rw [if_pos (by rw [neg_sq, sqrttwo_div_two_sq]; norm_num)]
  have habs : |(-(Real.sqrt 2 / 2))| = Real.sqrt 2 / 2 := by
    rw [abs_neg, abs_of_pos sqrttwo_div_two_pos]
  rw [habs, neg_div, div_self (ne_of_gt sqrttwo_div_two_pos)]

theorem collapse_AB_high :
    collapseFirst (qubitStates siteA candB) (3 / 4) =
      [((1 : ℝ), (0 : ℝ)), (Real.sqrt 2 / 2, Real.sqrt 2 / 2),
       ((1 : ℝ), (0 : ℝ))] := by
  rw [qubitStates_AB]
  simp only [collapseFirst]
  unfold collapseQubit
  rw [if_neg (by rw [neg_sq, sqrttwo_div_two_sq]; norm_num)]
  rw [abs_of_pos sqrttwo_div_two_pos, div_self (ne_of_gt sqrttwo_div_two_pos)]

theorem cbe_AB_low_conf :
    (calculate_binding_energy siteA candB (1 / 4)).confidence_score = 0 := by
  rw [cbe_confidence, collapse_AB_low, headI_stateVector]
  simp

theorem cbe_AB_high_conf :
    (calculate_binding_energy siteA candB (3 / 4)).confidence_score = 1 / 2 := by
  rw [cbe_confidence, collapse_AB_high, headI_stateVector]
  simp only [List.map_cons, List.map_nil, List.prod_cons, List.prod_nil]
  rw [one_mul, mul_one, mul_one, sqrttwo_div_two_sq]

theorem cbe_AB_low_energy :
    (calculate_binding_energy siteA candB (1 / 4)).binding_energy =
      -Real.log 1e-10 := by
  rw [cbe_binding_energy, collapse_AB_low, headI_stateVector]
  norm_num

theorem cbe_AB_high_energy :
    (calculate_binding_energy siteA candB (3 / 4)).binding_energy =
      -Real.log (1 / 2 + 1e-10) := by
  rw [cbe_binding_energy, collapse_AB_high, headI_stateVector]
  simp only [List.map_cons, List.map_nil, List.prod_cons, List.prod_nil]
  rw [one_mul, mul_one, mul_one, sqrttwo_div_two_sq]

/-- C1 (counterexample): at `site = [(1,0,0)]`, `candidate = [(0,1,0)]` the
measured qubit ends in an even superposition, so two calls whose measurement
samples fall on different sides of `1/2` return different results
(confidence 0 versus 1/2): the evaluator is NOT free of internal
randomness. -/
theorem evaluator_determinism_cex :
    calculate_binding_energy siteA candB (1 / 4) ≠
      calculate_binding_energy siteA candB (3 / 4) := by
  intro h
  have hc := congrArg EnergyResult.confidence_score h
  rw [cbe_AB_low_conf, cbe_AB_high_conf] at hc
  norm_num at hc

/-! ### A concrete two-iteration optimizer run -/

theorem perturbed_zero (σ : ℝ) (j : ℕ) (c : Coords) :
    perturbed σ (fun _ => ((0 : ℝ), (0 : ℝ), (0 : ℝ))) j c = c := by
  induction c generalizing j with
  | nil => simp [perturbed]
  | cons x xs ih =>
    rw [perturbed, ih]
    simp

theorem cex_energy_lt :
    -Real.log (1 / 2 + 1e-10) < -Real.log 1e-10 := by
  have := Real.log_lt_log (by norm_num : (0 : ℝ) < 1e-10)
    (by norm_num : (1e-10 : ℝ) < 1 / 2 + 1e-10)
  linarith

theorem cex_state1 :
    optIter siteA candB cexPert cexUs 1 =
      ⟨candB, ((-Real.log 1e-10 : ℝ) : WithTop ℝ),
       [⟨1, -Real.log 1e-10, 0,
         (calculate_binding_energy siteA candB (1 / 4)).electrostatic_component,
         (calculate_binding_energy siteA candB (1 / 4)).van_der_waals_component⟩],
       some (-Real.log 1e-10)⟩ := by
  have hc : optIter siteA candB cexPert cexUs 1 =
      optStep siteA cexPert cexUs 0 ⟨candB, ⊤, [], none⟩ := rfl
  rw [hc]
  simp only [optStep]
  rw [show cexUs 0 = 1 / 4 from by simp [cexUs]]
  rw [show perturbed 0.05 (cexPert 0) 0 candB = candB from perturbed_zero _ _ _]
  rw [cbe_AB_low_energy]
  have hlt : ((-Real.log 1e-10 : ℝ) : WithTop ℝ) < ⊤ := WithTop.coe_lt_top _
  rw [if_pos hlt, if_pos hlt, WithTop.untop'_coe]
  simp

theorem cex_state2 :
    optIter siteA candB cexPert cexUs 2 =
      ⟨candB, ((-Real.log (1 / 2 + 1e-10) : ℝ) : WithTop ℝ),
       [⟨1, -Real.log 1e-10, 0,
         (calculate_binding_energy siteA candB (1 / 4)).electrostatic_component,
         (calculate_binding_energy siteA candB (1 / 4)).van_der_waals_component⟩,
        ⟨2, -Real.log (1 / 2 + 1e-10), 0,
         (calculate_binding_energy siteA candB (3 / 4)).electrostatic_component,
         (calculate_binding_energy siteA candB (3 / 4)).van_der_waals_component⟩],
       some (-Real.log 1e-10)⟩ := by
  have hc : optIter siteA candB cexPert cexUs 2 =
      optStep siteA cexPert cexUs 1 (optIter siteA candB cexPert cexUs 1) := rfl
  rw [hc, cex_state1]
  simp only [optStep]
  rw [show cexUs 1 = 3 / 4 from by simp [cexUs]]
  rw [show perturbed 0.05 (cexPert 1) 0 candB = candB from perturbed_zero _ _ _]
  rw [cbe_AB_high_energy]
  rw [if_pos (WithTop.coe_lt_coe.mpr cex_energy_lt),
    if_pos (WithTop.coe_lt_coe.mpr cex_energy_lt), WithTop.untop'_coe]
  simp

/-- C5 (counterexample): in a concrete two-iteration run whose second step
improves on the first, the recorded `improvement` of that step is `0` (the
source subtracts AFTER updating the best-so-far), not the strictly positive
"best-so-far before this step minus this step's energy" that the claim
requires. -/
theorem optimize_improvement_cex :
    ¬ (∀ k : ℕ, 1 ≤ k → k < 2 →
        ∃ en : PathEntry, ∃ m : ℝ,
          ((optimize_drug_candidate siteA candB 2 cexPert cexUs).optimization_path)[k]? =
            some en ∧
          ((((optimize_drug_candidate siteA candB 2 cexPert cexUs).optimization_path).take
            k).map PathEntry.energy).minimum = (m : WithTop ℝ) ∧
          en.improvement = m - en.energy) := by
  intro hcl
  obtain ⟨en, m, hget, hmin, himp⟩ := hcl 1 le_rfl (by norm_num)
  have hpath : (optimize_drug_candidate siteA candB 2 cexPert cexUs).optimization_path =
      [⟨1, -Real.log 1e-10, 0,
        (calculate_binding_energy siteA candB (1 / 4)).electrostatic_component,
        (calculate_binding_energy siteA candB (1 / 4)).van_der_waals_component⟩,
       ⟨2, -Real.log (1 / 2 + 1e-10), 0,
        (calculate_binding_energy siteA candB (3 / 4)).electrostatic_component,
        (calculate_binding_energy siteA candB (3 / 4)).van_der_waals_component⟩] := by
    simp only [optimize_drug_candidate, cex_state2]
  rw [hpath] at hget hmin
  simp only [List.getElem?_cons_succ, List.getElem?_cons_zero, Option.some.injEq] at hget
  have htake : ([⟨1, -Real.log 1e-10, 0,
      (calculate_binding_energy siteA candB (1 / 4)).electrostatic_component,
      (calculate_binding_energy siteA candB (1 / 4)).van_der_waals_component⟩,
     ⟨2, -Real.log (1 / 2 + 1e-10), 0,
      (calculate_binding_energy siteA candB (3 / 4)).electrostatic_component,
      (calculate_binding_energy siteA candB (3 / 4)).van_der_waals_component⟩] :
      List PathEntry).take 1 =
      [⟨1, -Real.log 1e-10, 0,
        (calculate_binding_energy siteA candB (1 / 4)).electrostatic_component,
        (calculate_binding_energy siteA candB (1 / 4)).van_der_waals_component⟩] := rfl
  rw [htake] at hmin
  simp only [List.map_cons, List.map_nil, List.minimum_singleton] at hmin
  have hm : m = -Real.log 1e-10 := by
    have := hmin
    rw [WithTop.coe_inj] at this
    exact this.symm
  rw [← hget, hm] at himp
  simp at himp
  have hlt := cex_energy_lt
  linarith

/-! ### Claim theorems about the multi-target aggregator and the comparator -/

/-- C7: for every known target processed by either aggregator path, the
returned Drug Candidate's `mutation_resistance` is the arithmetic mean of
the binding energies of the optimized coordinates evaluated against the
three configured EGFR mutation-site reference sets (`T790M`, `L858R`,
`C797S` in insertion order) — including on the covid path, independent of
which target key is being processed. -/
theorem multi_target_mutation_resistance (initial_coords : Coords)
    (nC nV : ℕ) (rC rV : AggRand) (tC tV : String) (siteC siteV : Coords)
    (hC : egfr_mutation_sites tC = some siteC)
    (hV : spike_binding_sites tV = some siteV) :
    (∃ c, optimize_cancer_drug initial_coords tC nC rC = .ok c ∧
      c.mutation_resistance =
        ((calculate_binding_energy [(0.2, 0.1, 0.1), (-0.1, 0.2, 0.1)]
            ((targetLoop siteC initial_coords rC nC).best_coords) (rC.uRes 0)).binding_energy +
         (calculate_binding_energy [(0.1, -0.1, 0.2), (-0.2, 0.0, 0.1)]
            ((targetLoop siteC initial_coords rC nC).best_coords) (rC.uRes 1)).binding_energy +
         (calculate_binding_energy [(0.0, 0.0, 0.0), (0.3, 0.2, 0.1)]
            ((targetLoop siteC initial_coords rC nC).best_coords) (rC.uRes 2)).binding_energy) / 3) ∧
    (∃ c, optimize_covid_inhibitor initial_coords tV nV rV = .ok c ∧
      c.mutation_resistance =
        ((calculate_binding_energy [(0.2, 0.1, 0.1), (-0.1, 0.2, 0.1)]
            ((targetLoop siteV initial_coords rV nV).best_coords) (rV.uRes 0)).binding_energy +
         (calculate_binding_energy [(0.1, -0.1, 0.2), (-0.2, 0.0, 0.1)]
            ((targetLoop siteV initial_coords rV nV).best_coords) (rV.uRes 1)).binding_energy +
         (calculate_binding_energy [(0.0, 0.0, 0.0), (0.3, 0.2, 0.1)]
            ((targetLoop siteV initial_coords rV nV).best_coords) (rV.uRes 2)).binding_energy) / 3) := by
  constructor
  · refine ⟨_, by rw [optimize_cancer_drug, hC], ?_⟩
    simp only [calculate_resistance_score, resistance_scores, egfr_site_values]
    simp only [List.sum_cons, List.sum_nil, List.length_cons, List.length_nil]
    norm_num
    ring
  · refine ⟨_, by rw [optimize_covid_inhibitor, hV], ?_⟩
    simp only [calculate_resistance_score, resistance_scores, egfr_site_values]
    simp only [List.sum_cons, List.sum_nil, List.length_cons, List.length_nil]
    norm_num
    ring

/-- C9: an unknown target name makes both aggregator entry points fail fast
with a descriptive `KeyError` carrying the offending key — the dictionary
lookup precedes the optimization loop, so no iteration ever runs and the
target is never silently skipped (the error is returned for every iteration
budget and every randomness stream). -/
theorem multi_target_unknown_key (initial_coords : Coords) (nC nV : ℕ)
    (rC rV : AggRand) (tC tV : String)
    (hC : egfr_mutation_sites tC = none) (hV : spike_binding_sites tV = none) :
    optimize_cancer_drug initial_coords tC nC rC = .error ("KeyError: " ++ tC) ∧
    optimize_covid_inhibitor initial_coords tV nV rV = .error ("KeyError: " ++ tV) := by
  constructor
  · rw [optimize_cancer_drug, hC]
  · rw [optimize_covid_inhibitor, hV]

/-- C10: the Comparator's improvement formula is
`(candidate_score - best_known) / best_known * 100` with `best_known` the
maximum reference score of the category (8.2 for cancer, 7.8 for covid),
and on inputs `candidate_score = 9.0`, `best_known = 7.5` it yields exactly
`20.0`. -/
theorem comparator_improvement_percentage :
    best_known reference_scores_cancer = 8.2 ∧
    best_known reference_scores_covid = 7.8 ∧
    (∀ s : ℝ, cancer_breakthrough_improvement s = (s - 8.2) / 8.2 * 100) ∧
    (∀ s : ℝ, covid_breakthrough_improvement s = (s - 7.8) / 7.8 * 100) ∧
    improvement_percentage 9.0 7.5 = 20.0 := by
  have hc : best_known reference_scores_cancer = 8.2 := by
    simp only [best_known, reference_scores_cancer, List.map_cons, List.map_nil,
      List.foldl_cons, List.foldl_nil]
    rw [max_eq_left (by norm_num), max_eq_left (by norm_num)]
  have hv : best_known reference_scores_covid = 7.8 := by
    simp only [best_known, reference_scores_covid, List.map_cons, List.map_nil,
      List.foldl_cons, List.foldl_nil]
    rw [max_eq_left (by norm_num), max_eq_left (by norm_num)]
  refine ⟨hc, hv, ?_, ?_, ?_⟩
  · intro s
    rw [cancer_breakthrough_improvement, hc, improvement_percentage]
  · intro s
    rw [covid_breakthrough_improvement, hv, improvement_percentage]
  · rw [improvement_percentage]
    norm_num

/-! ### Concrete evaluation at the all-zero coordinate set, and witnesses -/

theorem anglesOf_zero : anglesOf zeroCoords = [0, 0, 0] := by
  have hn : normalize3 ((0 : ℝ), 0, 0) = ((0 : ℝ), 0, 0) := by
    unfold normalize3
    norm_num
  simp only [anglesOf, zeroCoords, List.flatMap_cons, List.flatMap_nil, hn]
  norm_num

theorem qubitStates_zero :
    qubitStates zeroCoords zeroCoords =
      [((1 : ℝ), (0 : ℝ)), ((1 : ℝ), (0 : ℝ)), ((1 : ℝ), (0 : ℝ))] := by
  have hr : List.range 3 = [0, 1, 2] := by decide
  rw [qubitStates]
  simp only [anglesOf_zero, List.length_cons, List.length_nil]
  norm_num
  rw [hr, List.map_cons, List.map_cons, List.map_cons, List.map_nil]
  have h0 : qubitState [(0 : ℝ), 0, 0] [(0 : ℝ), 0, 0] 0 = ((1 : ℝ), (0 : ℝ)) := by
    simp only [qubitState]
    norm_num [applyRy_zero, applyX]
  have h1 : qubitState [(0 : ℝ), 0, 0] [(0 : ℝ), 0, 0] 1 = ((1 : ℝ), (0 : ℝ)) := by
    simp only [qubitState]
    norm_num [applyRy_zero, applyX]
  have h2 : qubitState [(0 : ℝ), 0, 0] [(0 : ℝ), 0, 0] 2 = ((1 : ℝ), (0 : ℝ)) := by
    simp only [qubitState]
    norm_num [applyRy_zero, applyX]
  rw [h0, h1, h2]

/-- C1 (witness): at the all-zero input the measured qubit is exactly `|0⟩`
(excited probability 0), and the amended determinism theorem applies with
two different measurement samples. -/
theorem evaluator_deterministic_witness :
    (((qubitStates zeroCoords zeroCoords).headI.2) ^ 2 = 0 ∨
      ((qubitStates zeroCoords zeroCoords).headI.2) ^ 2 = 1) ∧
    calculate_binding_energy zeroCoords zeroCoords (1 / 3) =
      calculate_binding_energy zeroCoords zeroCoords (2 / 3) :=
  ⟨Or.inl (by rw [qubitStates_zero]; norm_num),
   evaluator_deterministic_given_outcome zeroCoords zeroCoords (1 / 3) (2 / 3)
     (by norm_num) (by norm_num) (by norm_num) (by norm_num)
     (Or.inl (by rw [qubitStates_zero]; norm_num))⟩

/-- C3 (witness): the component-sum theorem applied at the concrete
non-empty pair `([(0,0,0)], [(0,0,0)])` with sample `1/2`. -/
theorem evaluator_components_witness :
    (zeroCoords ≠ [] ∧ (0 : ℝ) ≤ 1 / 2 ∧ (1 / 2 : ℝ) < 1) ∧
    (calculate_binding_energy zeroCoords zeroCoords (1 / 2)).electrostatic_component +
      (calculate_binding_energy zeroCoords zeroCoords (1 / 2)).van_der_waals_component = 1 :=
  ⟨⟨by simp [zeroCoords], by norm_num, by norm_num⟩,
   evaluator_components_sum_to_one zeroCoords zeroCoords (1 / 2)
     (by simp [zeroCoords]) (by simp [zeroCoords]) (by norm_num) (by norm_num)⟩

/-- C5 (witness): the amended improvement theorem applied to a concrete
one-iteration run at index 0. -/
theorem optimize_improvement_witness :
    (0 : ℕ) < 1 ∧
    (∃ en : PathEntry, ∃ m : ℝ,
      ((optimize_drug_candidate siteA candB 1 cexPert cexUs).optimization_path)[0]? =
        some en ∧
      ((((optimize_drug_candidate siteA candB 1 cexPert cexUs).optimization_path).take
        (0 + 1)).map PathEntry.energy).minimum = (m : WithTop ℝ) ∧
      en.improvement = m - en.energy) :=
  ⟨by decide,
   optimize_improvement_after_update siteA candB cexPert cexUs 1 0 (by decide)⟩

/-- C6 (witness): the amended empty-input theorem applied at the concrete
both-empty input with sample `1/2`. -/
theorem evaluator_empty_witness :
    ((0 : ℝ) ≤ 1 / 2 ∧ (1 / 2 : ℝ) < 1 ∧
      (([] : Coords) = [] ∨ ([] : Coords) = [])) ∧
    ((0 ≤ (calculate_binding_energy [] [] (1 / 2)).confidence_score ∧
      (calculate_binding_energy [] [] (1 / 2)).confidence_score ≤ 1 ∧
      (calculate_binding_energy [] [] (1 / 2)).electrostatic_component +
        (calculate_binding_energy [] [] (1 / 2)).van_der_waals_component = 1) ∧
    (([] : Coords) = [] → ([] : Coords) = [] →
      (calculate_binding_energy [] [] (1 / 2)).confidence_score = 1 ∧
      (calculate_binding_energy [] [] (1 / 2)).binding_energy =
        -Real.log (1 + 1e-10))) :=
  ⟨⟨by norm_num, by norm_num, Or.inl rfl⟩,
   evaluator_empty_input_behaviour [] [] (1 / 2) (by norm_num) (by norm_num)
     (Or.inl rfl)⟩

/-- C7 (witness): the cross-target resistance theorem applied at the known
keys `T790M` (cancer) and `ACE2` (covid), ten iterations, a fixed
randomness bundle, and the all-zero initial structure. -/
theorem multi_target_resistance_witness :
    egfr_mutation_sites "T790M" = some [(0.2, 0.1, 0.1), (-0.1, 0.2, 0.1)] ∧
    spike_binding_sites "ACE2" = some [(0.0, 0.0, 0.0), (0.2, 0.1, 0.1)] ∧
    ((∃ c, optimize_cancer_drug zeroCoords "T790M" 10 aggRand0 = .ok c ∧
      c.mutation_resistance =
        ((calculate_binding_energy [(0.2, 0.1, 0.1), (-0.1, 0.2, 0.1)]
            ((targetLoop [(0.2, 0.1, 0.1), (-0.1, 0.2, 0.1)] zeroCoords aggRand0 10).best_coords)
            (aggRand0.uRes 0)).binding_energy +
         (calculate_binding_energy [(0.1, -0.1, 0.2), (-0.2, 0.0, 0.1)]
            ((targetLoop [(0.2, 0.1, 0.1), (-0.1, 0.2, 0.1)] zeroCoords aggRand0 10).best_coords)
            (aggRand0.uRes 1)).binding_energy +
         (calculate_binding_energy [(0.0, 0.0, 0.0), (0.3, 0.2, 0.1)]
            ((targetLoop [(0.2, 0.1, 0.1), (-0.1, 0.2, 0.1)] zeroCoords aggRand0 10).best_coords)
            (aggRand0.uRes 2)).binding_energy) / 3) ∧
    (∃ c, optimize_covid_inhibitor zeroCoords "ACE2" 10 aggRand0 = .ok c ∧
      c.mutation_resistance =
        ((calculate_binding_energy [(0.2, 0.1, 0.1), (-0.1, 0.2, 0.1)]
            ((targetLoop [(0.0, 0.0, 0.0), (0.2, 0.1, 0.1)] zeroCoords aggRand0 10).best_coords)
            (aggRand0.uRes 0)).binding_energy +
         (calculate_binding_energy [(0.1, -0.1, 0.2), (-0.2, 0.0, 0.1)]
            ((targetLoop [(0.0, 0.0, 0.0), (0.2, 0.1, 0.1)] zeroCoords aggRand0 10).best_coords)
            (aggRand0.uRes 1)).binding_energy +
         (calculate_binding_energy [(0.0, 0.0, 0.0), (0.3, 0.2, 0.1)]
            ((targetLoop [(0.0, 0.0, 0.0), (0.2, 0.1, 0.1)] zeroCoords aggRand0 10).best_coords)
            (aggRand0.uRes 2)).binding_energy) / 3)) :=
  ⟨rfl, rfl,
   multi_target_mutation_resistance zeroCoords 10 10 aggRand0 aggRand0
     "T790M" "ACE2" _ _ rfl rfl⟩

/-- C9 (witness): the unknown-key theorem applied to the concrete unknown
target name `XK999` on both aggregator paths. -/
theorem multi_target_unknown_key_witness :
    egfr_mutation_sites "XK999" = none ∧ spike_binding_sites "XK999" = none ∧
    (optimize_cancer_drug zeroCoords "XK999" 10 aggRand0 =
        .error ("KeyError: " ++ "XK999") ∧
      optimize_covid_inhibitor zeroCoords "XK999" 10 aggRand0 =
        .error ("KeyError: " ++ "XK999")) :=
  ⟨rfl, rfl,
   multi_target_unknown_key zeroCoords 10 10 aggRand0 aggRand0 "XK999" "XK999"
     rfl rfl⟩

/-- C8 (witness): the energy-bounds theorem applied at the concrete pair
`([(1,0,0)], [(0,1,0)])` with sample `1/2`. -/
theorem evaluator_energy_bounds_witness :
    ((0 : ℝ) ≤ 1 / 2 ∧ (1 / 2 : ℝ) < 1) ∧
    (-Real.log (1 + 1e-10) ≤ (calculate_binding_energy siteA candB (1 / 2)).binding_energy ∧
      (calculate_binding_energy siteA candB (1 / 2)).binding_energy ≤ -Real.log 1e-10) :=
  ⟨⟨by norm_num, by norm_num⟩,
   evaluator_energy_bounds siteA candB (1 / 2) (by norm_num) (by norm_num)⟩

end QMolSim
